import Mathlib

/-!
# Verification of the `med_img_streamlit` DICOM anonymizer core

A shallow embedding, in Lean 4, of the tag-anonymization rule engine and the
identity-reconciliation layer of the repository
(`dicom_anonymizer/application/anonymizer_utils/anonymize_dicom.py`,
`dicom_anonymizer/application/ui_utils/ui_logic.py`,
`dicom_anonymizer/application/app_settings/config.py`), together with
theorems settling the specification claims about them.

Python's in-place mutation of DICOM elements and pandas tables is modelled
by functions returning the updated values; file-system and pydicom I/O is
modelled by explicit inputs (parse results, file listings).
-/

/-- A DICOM tag: a two-part integer key (group, element).
Embeds `pydicom.tag.Tag` as used throughout `anonymize_dicom.py`. -/
structure DicomTag where
  group : Nat
  elem : Nat
deriving DecidableEq, Repr

/-- Python `str.strip()`: remove leading and trailing whitespace. -/
def pyStrip (s : String) : String :=
  ⟨((s.data.dropWhile Char.isWhitespace).reverse.dropWhile Char.isWhitespace).reverse⟩

/-- One element of a DICOM dataset: a `Tag`, a value-representation code
`VR`, and a `value` (modelled as its string form).  `acceptsText` abstracts
whether assigning an arbitrary string to `data_element.value` succeeds in
pydicom (assignment raises for strictly numeric VRs; `remove_info` catches
that and assigns `""` instead). -/
structure DataElement where
  tag : DicomTag
  VR : String
  value : String
  acceptsText : Bool
deriving DecidableEq, Repr

/-- A (flattened) DICOM dataset: the list of its elements.  The claims under
verification only concern per-element rule outcomes, which by the code depend
only on the element's own tag/VR, so sequence nesting is not modelled. -/
abbrev Dataset := List DataElement

/-- First-match association-list lookup; embeds both Python `dict`
lookup/`dict.get` (keys are unique in a dict) and `pandas.Series.get`. -/
def alookup {κ α : Type} [DecidableEq κ] : List (κ × α) → κ → Option α
  | [], _ => none
  | (k', v) :: r, k => if k' = k then some v else alookup r k

/-- Embeds `remove_info` (`anonymize_dicom.py` lines 181-220).

The first line of the Python body re-binds the `va_type` parameter to a fixed
list, so the passed argument is dead.  The order of the rules is: spare-list
(early return), VR-wildcard redaction (with `try/except` fallback to `""`),
clear-list, then override-map.  Mutation of `data_element.value` is modelled
by returning the updated element; the `dataset` argument is unused by the
source body as well. -/
def remove_info (dataset : Dataset) (data_element : DataElement)
    (va_type : List String) (tags : List DicomTag)
    (update : Option (List (DicomTag × String)))
    (tags_2_spare : List DicomTag) : DataElement :=
  let va_type := ["PN", "LO", "SH", "AE", "DT", "DA"]
  if data_element.tag ∈ tags_2_spare then
    data_element
  else
    -- Each of the three remaining rules assigns only `data_element.value`
    -- (tag and VR never change), so the sequence of in-place assignments is
    -- modelled as the value left by the last rule that fired.
    let v1 :=
      if pyStrip data_element.VR ∈ va_type.map pyStrip then
        (if data_element.acceptsText then "Anonymized" else "")
      else data_element.value
    let v2 := if data_element.tag ∈ tags then "" else v1
    let v3 :=
      match update with
      | none => v2
      | some u =>
        match alookup u data_element.tag with
        | some v => v
        | none => v2
    { data_element with value := v3 }

/-- C1: an element whose tag is in the spare-list is returned unchanged by
`remove_info` — no VR-wildcard redaction, no clearing, no override is
applied, whatever the other rule arguments are. -/
theorem remove_info_spares (dataset : Dataset) (e : DataElement)
    (va_type : List String) (tags : List DicomTag)
    (update : Option (List (DicomTag × String))) (tags_2_spare : List DicomTag)
    (h : e.tag ∈ tags_2_spare) :
    remove_info dataset e va_type tags update tags_2_spare = e := by
  unfold remove_info
  rw [if_pos h]

/-- Witness for C1 at a concrete spared element. -/
theorem remove_info_spares_witness :
    (⟨0x0008, 0x0050⟩ : DicomTag) ∈ [(⟨0x0008, 0x0050⟩ : DicomTag)] ∧
      remove_info [] ⟨⟨0x0008, 0x0050⟩, "SH", "ACC1", true⟩
          ["PN"] [⟨0x0008, 0x0050⟩] (some [(⟨0x0008, 0x0050⟩, "NEW")])
          [⟨0x0008, 0x0050⟩] =
        ⟨⟨0x0008, 0x0050⟩, "SH", "ACC1", true⟩ :=
  ⟨by decide,
   remove_info_spares [] ⟨⟨0x0008, 0x0050⟩, "SH", "ACC1", true⟩ ["PN"]
     [⟨0x0008, 0x0050⟩] (some [(⟨0x0008, 0x0050⟩, "NEW")]) [⟨0x0008, 0x0050⟩]
     (by decide)⟩

/-- C2: for an element whose tag is not spared, if the tag is a key of the
override-map then after `remove_info` the element's value equals the mapped
literal, even when the same tag is in the clear-list and/or its VR matches
the wildcard set: the override step runs last and wins. -/
theorem remove_info_override_wins (dataset : Dataset) (e : DataElement)
    (va_type : List String) (tags : List DicomTag)
    (u : List (DicomTag × String)) (v : String) (tags_2_spare : List DicomTag)
    (hspare : e.tag ∉ tags_2_spare) (hkey : alookup u e.tag = some v) :
    (remove_info dataset e va_type tags (some u) tags_2_spare).value = v := by
  simp [remove_info, hspare, hkey]

/-- Witness for C2: the override value lands even though the tag is also in
the clear-list and the VR is in the wildcard set. -/
theorem remove_info_override_wins_witness :
    ((⟨0x0010, 0x0020⟩ : DicomTag) ∉ ([] : List DicomTag)) ∧
      alookup [(⟨0x0010, 0x0020⟩, "NEW")] (⟨0x0010, 0x0020⟩ : DicomTag) = some "NEW" ∧
      (remove_info [] ⟨⟨0x0010, 0x0020⟩, "LO", "12345", true⟩ []
          [⟨0x0010, 0x0020⟩] (some [(⟨0x0010, 0x0020⟩, "NEW")]) []).value = "NEW" :=
  ⟨by decide, by decide,
   remove_info_override_wins [] ⟨⟨0x0010, 0x0020⟩, "LO", "12345", true⟩ []
     [⟨0x0010, 0x0020⟩] [(⟨0x0010, 0x0020⟩, "NEW")] "NEW" []
     (by decide) (by decide)⟩

/-- C3 counterexample: `remove_info` is called with the VR-wildcard set `[]`,
and the element's VR `"PN"` is certainly not a member of that passed set, so
by the claim the value should be unchanged; yet the element is redacted to
the sentinel, because line 201 of `anonymize_dicom.py` overwrites the
`va_type` parameter with a fixed list. -/
theorem remove_info_ignores_passed_va_type :
    (remove_info [] ⟨⟨0x0008, 0x0008⟩, "PN", "John", true⟩ [] [] none []).value
        = "Anonymized" ∧
      "Anonymized" ≠ "John" ∧ "PN" ∉ ([] : List String) := by decide

/-- C3 (amended): for an element not spared, not in the clear-list and not a
key of the override-map, redaction is governed by the fixed internal set
`["PN", "LO", "SH", "AE", "DT", "DA"]` — the `va_type` argument passed to
`remove_info` is ignored.  If the trimmed VR is in that fixed set the value
becomes the sentinel `"Anonymized"`, or empty when the VR rejects the
sentinel assignment; otherwise the value is unchanged. -/
theorem remove_info_vr_fixed_set (dataset : Dataset) (e : DataElement)
    (va_type : List String) (tags : List DicomTag)
    (update : Option (List (DicomTag × String))) (tags_2_spare : List DicomTag)
    (hspare : e.tag ∉ tags_2_spare) (hclear : e.tag ∉ tags)
    (hupd : ∀ u, update = some u → alookup u e.tag = none) :
    (remove_info dataset e va_type tags update tags_2_spare).value =
      if pyStrip e.VR ∈ ["PN", "LO", "SH", "AE", "DT", "DA"] then
        (if e.acceptsText then "Anonymized" else "") else e.value := by
  have hfixed : (["PN", "LO", "SH", "AE", "DT", "DA"].map pyStrip)
      = ["PN", "LO", "SH", "AE", "DT", "DA"] := by decide
  unfold remove_info
  rw [if_neg hspare]
  dsimp only
  rw [hfixed, if_neg hclear]
  cases update with
  | none => rfl
  | some u =>
    have hu : alookup u e.tag = none := hupd u rfl
    simp [hu]

/-- Witness for C3's amended theorem at a concrete `"LO"` element, with the
passed wildcard set empty. -/
theorem remove_info_vr_fixed_set_witness :
    ((⟨0x0008, 0x0080⟩ : DicomTag) ∉ ([] : List DicomTag)) ∧
      ((⟨0x0008, 0x0080⟩ : DicomTag) ∉ ([] : List DicomTag)) ∧
      (∀ u : List (DicomTag × String),
        (none : Option (List (DicomTag × String))) = some u →
          alookup u (⟨0x0008, 0x0080⟩ : DicomTag) = none) ∧
      (remove_info [] ⟨⟨0x0008, 0x0080⟩, "LO", "General Hospital", true⟩ [] [] none []).value =
        if pyStrip "LO" ∈ ["PN", "LO", "SH", "AE", "DT", "DA"] then
          (if true then "Anonymized" else "") else "General Hospital" :=
  by
  refine ⟨by decide, by decide, ?_, ?_⟩
  · intro u h
    cases h
  · exact remove_info_vr_fixed_set [] ⟨⟨0x0008, 0x0080⟩, "LO", "General Hospital", true⟩
      [] [] none [] (by decide) (by decide) (by intro u h; cases h)

/-! ## Identity key builder (C4)

`create_dcm_df` builds the composite identity key as
`df[unique_ids].astype(str).agg('_'.join, axis=1)`: per row, the string
forms of the identity-field values joined with `"_"`. -/

/-- Python `'_'.join(xs)`. -/
def joinKey : List String → String
  | [] => ""
  | [x] => x
  | x :: y :: xs => x ++ "_" ++ joinKey (y :: xs)

/-- The text contributed by the fields before the varying one: each followed
by the separator. -/
def joinPre : List String → String
  | [] => ""
  | x :: xs => x ++ "_" ++ joinPre xs

/-- The text contributed by the fields after the varying one: the separator
followed by their join, when any. -/
def joinSuf : List String → String
  | [] => ""
  | x :: xs => "_" ++ joinKey (x :: xs)

theorem str_data_append (s t : String) : (s ++ t).data = s.data ++ t.data := rfl

theorem str_ext {s t : String} (h : s.data = t.data) : s = t := by
  cases s
  cases t
  exact congrArg String.mk h

theorem joinKey_cons (x : String) (l : List String) (h : l ≠ []) :
    joinKey (x :: l) = x ++ "_" ++ joinKey l := by
  cases l with
  | nil => exact absurd rfl h
  | cons y ys => rfl

theorem joinKey_decomp (p : List String) (c : String) (q : List String) :
    joinKey (p ++ c :: q) = joinPre p ++ (c ++ joinSuf q) := by
  induction p with
  | nil =>
    cases q with
    | nil =>
      apply str_ext
      simp [joinKey, joinPre, joinSuf, str_data_append]
    | cons y ys =>
      apply str_ext
      simp [joinKey, joinPre, joinSuf, str_data_append]
  | cons x p ih =>
    have hne : p ++ c :: q ≠ [] := by simp
    rw [List.cons_append, joinKey_cons x _ hne, ih]
    apply str_ext
    simp [joinPre, str_data_append]

/-- C4 (amended): the identity key is deterministic (equal field-value
tuples give equal keys), and two rows that differ in exactly one identity
field — all other fields equal — always receive different keys.  (Full
injectivity over arbitrary distinct tuples fails; see the counterexample.) -/
theorem joinKey_single_field_injective (p q : List String) (c c' : String)
    (h : c ≠ c') :
    (∀ xs ys : List String, xs = ys → joinKey xs = joinKey ys) ∧
      joinKey (p ++ c :: q) ≠ joinKey (p ++ c' :: q) := by
  refine ⟨fun xs ys hxy => by rw [hxy], ?_⟩
  rw [joinKey_decomp, joinKey_decomp]
  intro heq
  apply h
  have hd := congrArg String.data heq
  rw [str_data_append, str_data_append, str_data_append, str_data_append] at hd
  have h1 := List.append_cancel_left hd
  have h2 := List.append_cancel_right h1
  exact str_ext h2

/-- Witness for C4's amended theorem at concrete field tuples
`["P1", "a"]` and `["P1", "b"]`. -/
theorem joinKey_single_field_injective_witness :
    ("a" : String) ≠ "b" ∧
      ((∀ xs ys : List String, xs = ys → joinKey xs = joinKey ys) ∧
        joinKey (["P1"] ++ "a" :: []) ≠ joinKey (["P1"] ++ "b" :: [])) :=
  ⟨by decide, joinKey_single_field_injective ["P1"] [] "a" "b" (by decide)⟩

/-- C4 counterexample: the key builder is not injective over distinct
field-value tuples — values containing the separator collide:
`join ["a_b", "c"] = join ["a", "b_c"] = "a_b_c"`. -/
theorem joinKey_not_injective :
    joinKey ["a_b", "c"] = joinKey ["a", "b_c"] ∧
      (["a_b", "c"] : List String) ≠ ["a", "b_c"] := by decide

/-! ## Output-directory computation (C5)

`create_output_dir` works on path strings via `str.replace`; `Path.parent`
and `Path.name` are modelled on '/'-separated path strings. -/

/-- Left-to-right, non-overlapping replacement of every occurrence of `pat`
in the character list, with fuel (one unit per consumed character); embeds
Python `str.replace` for a non-empty pattern (the empty pattern, which
Python treats specially, is never used by the code). -/
def listReplaceAux (pat rep : List Char) : Nat → List Char → List Char
  | _, [] => []
  | 0, l => l
  | fuel + 1, c :: cs =>
    if pat ≠ [] ∧ pat.isPrefixOf (c :: cs) then
      rep ++ listReplaceAux pat rep fuel (List.drop (pat.length - 1) cs)
    else
      c :: listReplaceAux pat rep fuel cs

/-- Python `s.replace(pat, rep)` (all occurrences). -/
def pyReplace (s pat rep : String) : String :=
  ⟨listReplaceAux pat.data rep.data s.data.length s.data⟩

/-- Split a character list on `'/'`; embeds the component structure of
`pathlib.Path` for the POSIX-style path strings the claims use. -/
def splitSlash : List Char → List (List Char)
  | [] => [[]]
  | c :: cs =>
    if c = '/' then [] :: splitSlash cs
    else
      match splitSlash cs with
      | [] => [[c]]
      | w :: ws => (c :: w) :: ws

/-- Rejoin path components with `'/'`. -/
def joinSlash : List (List Char) → List Char
  | [] => []
  | [w] => w
  | w :: ws => w ++ '/' :: joinSlash ws

/-- `pathlib.Path(p).name`. -/
def pathName (p : String) : String :=
  ⟨(splitSlash p.data).getLastD []⟩

/-- `str(pathlib.Path(p).parent)`. -/
def pathParent (p : String) : String :=
  ⟨joinSlash (splitSlash p.data).dropLast⟩

/-- Embeds `create_output_dir` (`anonymize_dicom.py` lines 11-22):
`str(file_dir).replace(str(folder_dir), str(folder_dir.parent / (folder_dir.name + "-Anonymized")))`. -/
def create_output_dir (file_dir folder_dir : String) : String :=
  pyReplace file_dir folder_dir
    (pathParent folder_dir ++ "/" ++ pathName folder_dir ++ "-Anonymized")

/-- Embeds line 115 of `create_dcm_df` (non-series branch): per surviving
file it records `create_output_dir(folder_dir.name, folder_dir.parent)`,
passing the root's *name* where a file path is expected and the root's
*parent* where the root is expected. -/
def nonSeriesOutputDir (root : String) : String :=
  create_output_dir (pathName root) (pathParent root)

/-- C5: in the non-series branch the recorded output directory is just the
root directory's bare name (the root's name contains no occurrence of the
root's parent, so the replace is a no-op), not the mirrored
`<parent>/<root>-Anonymized/<subdir>` path that the claim — and the
repository's own test `test_create_dcm_df`, which expects
`create_output_dir(patient_folder, base)` — describe.  The second conjunct
evaluates the mirrored path that a correct call produces. -/
theorem create_output_dir_nonseries_bug :
    nonSeriesOutputDir "/data/study" = "study" ∧
      create_output_dir "/data/study/sub1" "/data/study"
        = "/data/study-Anonymized/sub1" := by decide

/-! ## Tables

Rows of pandas DataFrames are modelled as association lists from column
name to cell; a cell is `Option String` (`none` for NaN/missing, matching
`getattr(f, tag, None)` and `row.get(col)`). -/

/-- A table cell: `none` models NaN / a missing value. -/
abbrev Cell := Option String

/-- One table row: column name to cell. -/
abbrev TRow := List (String × Cell)

/-- `row.get(col)` / `row[col]` flattened: a missing column reads as NaN.
(The columns the claims exercise are always present, so the pandas
`KeyError` on a truly absent column is not distinguished from NaN.) -/
def lookupCell (r : TRow) (c : String) : Cell :=
  match alookup r c with
  | some v => v
  | none => none

/-! ## Case aggregation, non-series branch (C6)

The non-series branch of `create_dcm_df` (lines 85-147): walk the globbed
file list; skip a file whose directory was already processed; try to parse
(skip on failure); append one row per first successfully-parsed file of a
directory.  Directory traversal and `pydicom.dcmread` are modelled by the
input list of `FileEntry`. -/

/-- The metadata of one parsed file: its DICOM attributes as (name, value)
pairs. -/
structure DicomMeta where
  fields : List (String × String)
deriving DecidableEq, Repr

/-- One globbed file: its path, its containing directory (`file_dir.parent`)
and the result of `pydicom.dcmread` (`none` models a raised exception). -/
structure FileEntry where
  path : String
  parent : String
  parsed : Option DicomMeta
deriving DecidableEq, Repr

/-- One row of the case table. -/
structure CaseRow where
  folder_dir : String
  output_dir : String
  values : TRow
deriving DecidableEq, Repr

/-- `getattr(f, dcm_tag, None)`, with the `PatientName` special case
`''.join(getattr(f, 'PatientName', ''))` (missing name reads as `""`). -/
def getTagValue (meta : DicomMeta) (dcm_tag : String) : Cell :=
  if dcm_tag = "PatientName" then
    some (match alookup meta.fields dcm_tag with
          | some v => v
          | none => "")
  else alookup meta.fields dcm_tag

/-- The row appended for the first successfully-parsed file of a directory
(lines 114-122). -/
def mkCaseRow (root : String) (all_tags : List String) (f : FileEntry)
    (meta : DicomMeta) : CaseRow :=
  { folder_dir := f.parent
    output_dir := nonSeriesOutputDir root
    values := all_tags.map (fun t => (t, getTagValue meta t)) }

/-- The non-series loop of `create_dcm_df`, with the `processed` directory
list and the accumulated rows as explicit state. -/
def create_dcm_df_nonseries_go (root : String) (all_tags : List String) :
    List FileEntry → List String → List CaseRow → List CaseRow
  | [], _, acc => acc
  | f :: fs, processed, acc =>
    if f.parent ∈ processed then
      create_dcm_df_nonseries_go root all_tags fs processed acc
    else
      match f.parsed with
      | none => create_dcm_df_nonseries_go root all_tags fs processed acc
      | some meta =>
        create_dcm_df_nonseries_go root all_tags fs (processed ++ [f.parent])
          (acc ++ [mkCaseRow root all_tags f meta])

/-- Embeds the non-series branch of `create_dcm_df` (lines 85-147): the rows
of the returned DataFrame, in order. -/
def create_dcm_df_nonseries (root : String) (all_tags : List String)
    (files : List FileEntry) : List CaseRow :=
  create_dcm_df_nonseries_go root all_tags files [] []

/-- `str()` as pandas `astype(str)` applies it to a cell (`None` renders as
`"None"`). -/
def pystr : Cell → String
  | none => "None"
  | some s => s

/-- The composite identity key of a row:
`df[unique_ids].astype(str).agg('_'.join, axis=1)` (lines 144-146). -/
def rowPK (unique_ids : List String) (r : CaseRow) : String :=
  joinKey (unique_ids.map (fun t => pystr (lookupCell r.values t)))

/-- C6 counterexample: two sub-directories whose records carry the same
`PatientID` produce two rows with the identical identity key `"P1"`, so the
`PK` index of the non-series case table is not duplicate-free. -/
theorem create_dcm_df_nonseries_pk_duplicate :
    ((create_dcm_df_nonseries "/data/study" ["PatientID"]
        [⟨"/data/study/a/1.dcm", "/data/study/a", some ⟨[("PatientID", "P1")]⟩⟩,
         ⟨"/data/study/b/1.dcm", "/data/study/b", some ⟨[("PatientID", "P1")]⟩⟩]).map
        (rowPK ["PatientID"])) = ["P1", "P1"] ∧
      ¬ (["P1", "P1"] : List String).Nodup := by decide

theorem create_dcm_df_nonseries_go_nodup (root : String) (all_tags : List String)
    (files : List FileEntry) (processed : List String) (acc : List CaseRow)
    (hacc : ∀ r ∈ acc, r.folder_dir ∈ processed)
    (hnd : (acc.map CaseRow.folder_dir).Nodup) :
    ((create_dcm_df_nonseries_go root all_tags files processed acc).map
      CaseRow.folder_dir).Nodup := by
  induction files generalizing processed acc with
  | nil => exact hnd
  | cons f fs ih =>
    unfold create_dcm_df_nonseries_go
    by_cases hp : f.parent ∈ processed
    · rw [if_pos hp]
      exact ih processed acc hacc hnd
    · rw [if_neg hp]
      cases hparse : f.parsed with
      | none => exact ih processed acc hacc hnd
      | some meta =>
        apply ih
        · intro r hr
          rcases List.mem_append.mp hr with h | h
          · exact List.mem_append_left _ (hacc r h)
          · rcases List.mem_singleton.mp h with rfl
            exact List.mem_append_right _ (List.mem_singleton.mpr rfl)
        · rw [List.map_append]
          apply List.Nodup.append hnd (by simp)
          intro d hd hd1
          have hdeq : d = (mkCaseRow root all_tags f meta).folder_dir := by
            simpa using hd1
          rcases List.mem_map.mp hd with ⟨r, hr, hfd⟩
          apply hp
          have : r.folder_dir = f.parent := by rw [hfd, hdeq]; rfl
          exact this ▸ hacc r hr

/-- C6 (amended): in non-series mode the case table has at most one row per
source directory — the `folder_dir` values of the rows are pairwise
distinct — but rows originating from different directories can share the
same composite identity key (see the counterexample), so uniqueness holds
for directories, not for the `PK` index. -/
theorem create_dcm_df_nonseries_folder_dirs_nodup (root : String)
    (all_tags : List String) (files : List FileEntry) :
    ((create_dcm_df_nonseries root all_tags files).map CaseRow.folder_dir).Nodup :=
  create_dcm_df_nonseries_go_nodup root all_tags files [] []
    (fun r hr => absurd hr (List.not_mem_nil r)) List.nodup_nil

/-! ## Override reconciler (`ui_logic.py`): validation (C7) and merge (C8) -/

/-- A pandas DataFrame: its column list and its rows. -/
structure DataFrame where
  cols : List String
  rows : List TRow
deriving DecidableEq, Repr

/-- The cells of one column, in row order (`df[col]`). -/
def colValues (df : DataFrame) (c : String) : List Cell :=
  df.rows.map (fun r => lookupCell r c)

/-- Embeds `check_empty_cols` (`ui_logic.py` lines 64-80): the update
column of each tag is flagged when it contains a null or an empty-string
cell. -/
def check_empty_cols (df : DataFrame) : List String → List String
  | [] => []
  | t :: ts =>
    if ∃ v ∈ colValues df ("Update_" ++ t), v = none ∨ v = some "" then
      ("Update_" ++ t) :: check_empty_cols df ts
    else check_empty_cols df ts

/-- The filter inside `check_unmatched_rows` (lines 60-61): the matching
cell of every `edit_df` row found neither in the uploaded raw column nor in
its proposed-value column. -/
def unmatchedFilter (vals1 vals2 : List Cell) (upload_df_id : String) :
    List TRow → List Cell
  | [] => []
  | r :: rs =>
    if lookupCell r upload_df_id ∉ vals1 ∧ lookupCell r upload_df_id ∉ vals2 then
      lookupCell r upload_df_id :: unmatchedFilter vals1 vals2 upload_df_id rs
    else unmatchedFilter vals1 vals2 upload_df_id rs

/-- `pandas.Series.unique`: first occurrences, in order. -/
def dedupGo (seen : List Cell) : List Cell → List Cell
  | [] => []
  | x :: xs => if x ∈ seen then dedupGo seen xs else x :: dedupGo (seen ++ [x]) xs

/-- Embeds `check_unmatched_rows` (lines 48-62). -/
def check_unmatched_rows (upload_df edit_df : DataFrame) (upload_df_id : String) :
    List Cell :=
  dedupGo []
    (unmatchedFilter (colValues upload_df upload_df_id)
      (colValues upload_df ("Update_" ++ upload_df_id)) upload_df_id edit_df.rows)

/-- The message of `validate_upload` for empty update columns (line 104). -/
def emptyColsMsg (empty_col : List String) : String :=
  ":warning: Error in uploaded file: There are empty values in the following columns: :blue[" ++
    String.intercalate ", " empty_col ++ "]"

/-- The message for a missing proposed-value matching column (line 108). -/
def missingUpdateColMsg (upload_df_id : String) : String :=
  ":warning: Error in uploaded file: **Column \"Update_" ++ upload_df_id ++
    "\"** must be contained."

/-- The message for a missing raw matching column (line 111). -/
def missingColMsg (upload_df_id : String) : String :=
  ":warning: Error in uploaded file: **Column \"" ++ upload_df_id ++
    "\"** must be contained."

/-- The message listing the unmatched identifiers (line 117); stringifies
the cells the way `map(str, unmatched_ids)` renders them. -/
def unmatchedMsg (upload_df_id : String) (unmatched_ids : List Cell) : String :=
  ":warning: Error in uploaded file: The following **" ++ upload_df_id ++
    "** have no matches in the uploaded file - :blue[" ++
    String.intercalate ", " (unmatched_ids.map pystr) ++ "]."

/-- Embeds `validate_upload` (lines 82-119): returns `some message` on the
first failing check, `none` when the upload passes. -/
def validate_upload (edit_df upload_df : DataFrame) (update_tags : List String)
    (upload_df_id : String) : Option String :=
  let empty_col := check_empty_cols upload_df update_tags
  if 0 < empty_col.length then some (emptyColsMsg empty_col)
  else if ("Update_" ++ upload_df_id) ∉ upload_df.cols then
    some (missingUpdateColMsg upload_df_id)
  else if upload_df_id ∉ upload_df.cols then some (missingColMsg upload_df_id)
  else
    let unmatched_ids := check_unmatched_rows upload_df edit_df upload_df_id
    if unmatched_ids ≠ [] then some (unmatchedMsg upload_df_id unmatched_ids)
    else none

/-- pandas `==` between two cells: NaN compares unequal, even to itself. -/
def cellEq : Cell → Cell → Bool
  | some x, some y => x == y
  | _, _ => false

/-- `df.at[idx, col] = v` restricted to one row: replace the cell of an
existing column in place, or add the column at the end. -/
def setCell : TRow → String → Cell → TRow
  | [], k, v => [(k, v)]
  | (k', w) :: r, k, v =>
    if k' = k then (k, v) :: r else (k', w) :: setCell r k v

/-- Write the cells of the given keys, each taken from `f`, in order. -/
def updKeys (ks : List String) (f : String → Cell) (r : TRow) : TRow :=
  ks.foldl (fun r k => setCell r k (f k)) r

/-- The inner loop of `update_data_editor` (lines 42-44): copy every
`Update_<tag>` cell of the uploaded row onto the matched row. -/
def applyUpdates (r row_udf : TRow) (update_tags : List String) : TRow :=
  updKeys (update_tags.map (fun t => "Update_" ++ t))
    (fun c => lookupCell row_udf c) r

/-- Index of the first row satisfying the predicate
(`matching_row.index[0]`). -/
def findFirstIdx (p : TRow → Bool) : List TRow → Option Nat
  | [] => none
  | r :: rs => if p r then some 0 else (findFirstIdx p rs).map (· + 1)

/-- Replace the element at an index by the image under `g` (no-op when out
of range). -/
def modifyAt {α : Type} : List α → Nat → (α → α) → List α
  | [], _, _ => []
  | x :: xs, 0, g => g x :: xs
  | x :: xs, n + 1, g => x :: modifyAt xs n g

/-- One iteration of `update_data_editor`'s loop over the uploaded rows
(lines 34-44): find the first `edit_df` row whose `PatientID` equals the
uploaded row's and overwrite its update cells. -/
def mergeStep (update_tags : List String) (acc : List TRow) (row_udf : TRow) :
    List TRow :=
  match findFirstIdx
      (fun r => cellEq (lookupCell r "PatientID") (lookupCell row_udf "PatientID"))
      acc with
  | none => acc
  | some i => modifyAt acc i (fun r => applyUpdates r row_udf update_tags)

/-- Embeds `update_data_editor` (`ui_logic.py` lines 22-46), on the rows of
the two DataFrames (the function reads and writes cells only). -/
def update_data_editor (edit_rows upload_rows : List TRow)
    (update_tags : List String) : List TRow :=
  upload_rows.foldl (mergeStep update_tags) edit_rows

/-- Embeds the upload flow of `user_interface.py` (lines 291-305): the
uploaded table is validated first; on an error message the Case table is
kept as it is, otherwise the merge is applied. -/
def reconcile (edit_df upload_df : DataFrame) (update_tags : List String)
    (upload_df_id : String) : DataFrame × Option String :=
  match validate_upload edit_df upload_df update_tags upload_df_id with
  | some msg => (edit_df, some msg)
  | none =>
    ({ edit_df with rows := update_data_editor edit_df.rows upload_df.rows update_tags },
     none)

/-- A Case table whose matching-field (`AccessionNumber`) values are
`a`, `b`, `c`, with one updatable tag `PatientName`. -/
def c7edit (a b c : String) : DataFrame :=
  { cols := ["AccessionNumber", "Update_AccessionNumber", "Update_PatientName"]
    rows :=
      [[("AccessionNumber", some a), ("Update_AccessionNumber", some a),
        ("Update_PatientName", some "old")],
       [("AccessionNumber", some b), ("Update_AccessionNumber", some b),
        ("Update_PatientName", some "old")],
       [("AccessionNumber", some c), ("Update_AccessionNumber", some c),
        ("Update_PatientName", some "old")]] }

/-- An uploaded table containing only `a` and `b` (in both the raw and the
proposed-value matching columns), with populated update values. -/
def c7upload (a b u1 u2 : String) : DataFrame :=
  { cols := ["AccessionNumber", "Update_AccessionNumber", "Update_PatientName"]
    rows :=
      [[("AccessionNumber", some a), ("Update_AccessionNumber", some a),
        ("Update_PatientName", some u1)],
       [("AccessionNumber", some b), ("Update_AccessionNumber", some b),
        ("Update_PatientName", some u2)]] }

/-- C7: with Case identities `{a, b, c}` and an upload containing only
`{a, b}` in both matching columns (and fully populated update values),
reconciliation reports exactly `{c}` as unmatched — listed once, in the one
unmatched-identities message — and aborts with the Case table returned
unmodified. -/
theorem validate_upload_unmatched (a b c u1 u2 : String)
    (hca : c ≠ a) (hcb : c ≠ b) (h1 : u1 ≠ "") (h2 : u2 ≠ "") :
    reconcile (c7edit a b c) (c7upload a b u1 u2) ["PatientName"] "AccessionNumber"
      = (c7edit a b c, some (unmatchedMsg "AccessionNumber" [some c])) := by
  simp [reconcile, validate_upload, check_empty_cols, colValues, lookupCell,
    alookup, check_unmatched_rows, unmatchedFilter, dedupGo, c7edit, c7upload,
    hca, hcb, h1, h2]

/-- Witness for C7 at the concrete identities `"A"`, `"B"`, `"C"`. -/
theorem validate_upload_unmatched_witness :
    ("C" : String) ≠ "A" ∧ ("C" : String) ≠ "B" ∧ ("x" : String) ≠ "" ∧
      ("y" : String) ≠ "" ∧
      reconcile (c7edit "A" "B" "C") (c7upload "A" "B" "x" "y") ["PatientName"]
          "AccessionNumber"
        = (c7edit "A" "B" "C", some (unmatchedMsg "AccessionNumber" [some "C"])) :=
  ⟨by decide, by decide, by decide, by decide,
   validate_upload_unmatched "A" "B" "C" "x" "y" (by decide) (by decide)
     (by decide) (by decide)⟩

/-! ### Idempotence of the merge (C8): cell-level lemmas -/

/-- The row has a cell for the column. -/
def hasKey : TRow → String → Prop
  | [], _ => False
  | (k', _) :: r, k => k' = k ∨ hasKey r k

theorem lookupCell_cons (pk : String) (pv : Cell) (r : TRow) (k : String) :
    lookupCell ((pk, pv) :: r) k = if pk = k then pv else lookupCell r k := by
  by_cases h : pk = k <;> simp [lookupCell, alookup, h]

theorem setCell_setCell_same (r : TRow) (k : String) (v w : Cell) :
    setCell (setCell r k v) k w = setCell r k w := by
  induction r with
  | nil => simp [setCell]
  | cons p r ih =>
    obtain ⟨pk, pv⟩ := p
    by_cases h : pk = k
    · simp [setCell, h]
    · simp [setCell, h, ih]

theorem hasKey_setCell_self (r : TRow) (k : String) (v : Cell) :
    hasKey (setCell r k v) k := by
  induction r with
  | nil => simp [setCell, hasKey]
  | cons p r ih =>
    obtain ⟨pk, pv⟩ := p
    by_cases h : pk = k
    · simp [setCell, h, hasKey]
    · simp only [setCell, if_neg h, hasKey]
      exact Or.inr ih

theorem hasKey_setCell (r : TRow) (k k' : String) (w : Cell) (h : hasKey r k) :
    hasKey (setCell r k' w) k := by
  induction r with
  | nil => exact absurd h (by simp [hasKey])
  | cons p r ih =>
    obtain ⟨pk, pv⟩ := p
    rcases h with h1 | h1
    · by_cases hp : pk = k'
      · simp only [setCell, if_pos hp, hasKey]
        exact Or.inl (hp ▸ h1)
      · simp only [setCell, if_neg hp, hasKey]
        exact Or.inl h1
    · by_cases hp : pk = k'
      · simp only [setCell, if_pos hp, hasKey]
        exact Or.inr h1
      · simp only [setCell, if_neg hp, hasKey]
        exact Or.inr (ih h1)

theorem setCell_comm (r : TRow) (k k' : String) (v w : Cell)
    (hne : k ≠ k') (hk : hasKey r k) :
    setCell (setCell r k' w) k v = setCell (setCell r k v) k' w := by
  induction r with
  | nil => exact absurd hk (by simp [hasKey])
  | cons p r ih =>
    obtain ⟨pk, pv⟩ := p
    rcases hk with h1 | h1
    · have hp' : ¬ pk = k' := by rw [h1]; exact hne
      simp [setCell, h1, hp', hne, Ne.symm hne]
    · by_cases hp : pk = k
      · have hp' : ¬ pk = k' := by rw [hp]; exact hne
        simp [setCell, hp, hp', hne, Ne.symm hne]
      · by_cases hp' : pk = k'
        · simp [setCell, hp, hp', hne, Ne.symm hne]
        · simp only [setCell, if_neg hp, if_neg hp']
          rw [ih h1]

theorem updKeys_cons (k : String) (ks : List String) (f : String → Cell)
    (r : TRow) : updKeys (k :: ks) f r = updKeys ks f (setCell r k (f k)) := rfl

theorem setCell_updKeys (ks : List String) (f : String → Cell) (r : TRow)
    (k : String) (v : Cell) (hk : hasKey r k) (hni : k ∉ ks) :
    setCell (updKeys ks f r) k v = updKeys ks f (setCell r k v) := by
  induction ks generalizing r with
  | nil => rfl
  | cons k' ks ih =>
    have hne : k ≠ k' := fun h => hni (h ▸ List.mem_cons_self k' ks)
    rw [updKeys_cons, updKeys_cons]
    rw [ih (setCell r k' (f k')) (hasKey_setCell r k k' (f k') hk)
      (fun h => hni (List.mem_cons_of_mem k' h))]
    rw [setCell_comm r k k' v (f k') hne hk]

theorem updKeys_overwrite (ks : List String) (f g : String → Cell) (r : TRow)
    (hnd : ks.Nodup) : updKeys ks g (updKeys ks f r) = updKeys ks g r := by
  induction ks generalizing r with
  | nil => rfl
  | cons k ks ih =>
    have hk : k ∉ ks := (List.nodup_cons.mp hnd).1
    have hnd' : ks.Nodup := (List.nodup_cons.mp hnd).2
    rw [updKeys_cons, updKeys_cons]
    rw [setCell_updKeys ks f (setCell r k (f k)) k (g k)
      (hasKey_setCell_self r k (f k)) hk]
    rw [setCell_setCell_same r k (f k) (g k)]
    exact ih (setCell r k (g k)) hnd'

theorem lookupCell_setCell_ne (r : TRow) (k k' : String) (v : Cell)
    (hne : k' ≠ k) : lookupCell (setCell r k v) k' = lookupCell r k' := by
  induction r with
  | nil => simp [setCell, lookupCell, alookup, Ne.symm hne]
  | cons p r ih =>
    obtain ⟨pk, pv⟩ := p
    by_cases hp : pk = k
    · rw [setCell, if_pos hp, lookupCell_cons, lookupCell_cons,
        if_neg (Ne.symm hne), if_neg (by rw [hp]; exact Ne.symm hne)]
    · rw [setCell, if_neg hp, lookupCell_cons, lookupCell_cons]
      by_cases hp' : pk = k'
      · rw [if_pos hp', if_pos hp']
      · rw [if_neg hp', if_neg hp', ih]

theorem lookupCell_updKeys_ne (ks : List String) (f : String → Cell)
    (r : TRow) (k : String) (h : ∀ k' ∈ ks, k' ≠ k) :
    lookupCell (updKeys ks f r) k = lookupCell r k := by
  induction ks generalizing r with
  | nil => rfl
  | cons k' ks ih =>
    rw [updKeys_cons]
    rw [ih (setCell r k' (f k')) (fun x hx => h x (List.mem_cons_of_mem k' hx))]
    exact lookupCell_setCell_ne r k' k (f k')
      (Ne.symm (h k' (List.mem_cons_self k' ks)))

/-! ### Idempotence of the merge (C8): row-level lemmas -/

theorem upd_key_inj {a b : String} (h : "Update_" ++ a = "Update_" ++ b) :
    a = b := by
  have hd := congrArg String.data h
  rw [str_data_append, str_data_append] at hd
  exact str_ext (List.append_cancel_left hd)

theorem upd_key_ne_pid (t : String) : "Update_" ++ t ≠ "PatientID" := by
  intro h
  have hd := congrArg String.data h
  rw [str_data_append] at hd
  simp at hd

theorem applyUpdates_pid (r row_udf : TRow) (update_tags : List String) :
    lookupCell (applyUpdates r row_udf update_tags) "PatientID"
      = lookupCell r "PatientID" := by
  apply lookupCell_updKeys_ne
  intro k hk
  rcases List.mem_map.mp hk with ⟨t, _, rfl⟩
  exact upd_key_ne_pid t

theorem applyUpdates_overwrite (r u u' : TRow) (update_tags : List String)
    (hnd : update_tags.Nodup) :
    applyUpdates (applyUpdates r u update_tags) u' update_tags
      = applyUpdates r u' update_tags := by
  apply updKeys_overwrite
  exact hnd.map (fun a b h => upd_key_inj h)

/-- The per-row accumulation of several uploaded rows
(`applyUpdates` applied in upload order). -/
def chainApply (update_tags : List String) (r : TRow) (us : List TRow) : TRow :=
  us.foldl (fun r u => applyUpdates r u update_tags) r

theorem chainApply_cons (update_tags : List String) (r u : TRow) (us : List TRow) :
    chainApply update_tags r (u :: us)
      = chainApply update_tags (applyUpdates r u update_tags) us := rfl

theorem chainApply_getLastD (update_tags : List String) (hnd : update_tags.Nodup)
    (us : List TRow) (u r : TRow) :
    chainApply update_tags r (u :: us)
      = applyUpdates r (us.getLastD u) update_tags := by
  induction us generalizing r u with
  | nil => rfl
  | cons u' us ih =>
    rw [chainApply_cons, ih u' (applyUpdates r u update_tags),
      applyUpdates_overwrite r u _ update_tags hnd, List.getLastD_cons]

theorem chainApply_idem (update_tags : List String) (hnd : update_tags.Nodup)
    (r : TRow) (us : List TRow) :
    chainApply update_tags (chainApply update_tags r us) us
      = chainApply update_tags r us := by
  cases us with
  | nil => rfl
  | cons u us =>
    rw [chainApply_getLastD update_tags hnd us u r,
      chainApply_getLastD update_tags hnd us u _,
      applyUpdates_overwrite r _ _ update_tags hnd]

/-! ### Idempotence of the merge (C8): table-level lemmas -/

/-- Map with the element's index, counting from `n`. -/
def mapIdxGo {α : Type} (f : Nat → α → α) : Nat → List α → List α
  | _, [] => []
  | n, x :: xs => f n x :: mapIdxGo f (n + 1) xs

theorem mapIdxGo_congr {α : Type} (f g : Nat → α → α) (n : Nat) (l : List α)
    (h : ∀ i x, n ≤ i → f i x = g i x) : mapIdxGo f n l = mapIdxGo g n l := by
  induction l generalizing n with
  | nil => rfl
  | cons x xs ih =>
    simp only [mapIdxGo]
    rw [h n x (Nat.le_refl n),
      ih (n + 1) (fun i y hi => h i y (Nat.le_of_succ_le hi))]

theorem mapIdxGo_id {α : Type} (n : Nat) (l : List α) :
    mapIdxGo (fun _ x => x) n l = l := by
  induction l generalizing n with
  | nil => rfl
  | cons x xs ih => simp only [mapIdxGo]; rw [ih (n + 1)]

theorem mapIdxGo_mapIdxGo {α : Type} (f g : Nat → α → α) (n : Nat) (l : List α) :
    mapIdxGo f n (mapIdxGo g n l) = mapIdxGo (fun i x => f i (g i x)) n l := by
  induction l generalizing n with
  | nil => rfl
  | cons x xs ih => simp only [mapIdxGo]; rw [ih (n + 1)]

theorem mapIdxGo_modifyAt {α : Type} (f : Nat → α → α) (g : α → α)
    (n i : Nat) (l : List α) :
    mapIdxGo f n (modifyAt l i g)
      = mapIdxGo (fun j x => if j = n + i then f j (g x) else f j x) n l := by
  induction l generalizing n i with
  | nil => rfl
  | cons x xs ih =>
    cases i with
    | zero =>
      simp only [modifyAt, mapIdxGo]
      rw [if_pos (by omega : n = n + 0)]
      refine congrArg (List.cons _) ?_
      exact mapIdxGo_congr _ _ _ _ (fun i y hi => (if_neg (by omega)).symm)
    | succ i =>
      simp only [modifyAt, mapIdxGo]
      rw [if_neg (by omega : ¬ n = n + (i + 1))]
      refine congrArg (List.cons _) ?_
      rw [ih (n + 1) i]
      apply mapIdxGo_congr
      intro j y hj
      by_cases hcase : j = n + (i + 1)
      · rw [if_pos (by omega), if_pos hcase]
      · rw [if_neg (by omega), if_neg hcase]

/-- The `PatientID` cell of a row, on which `update_data_editor` matches. -/
def pidOf (r : TRow) : Cell := lookupCell r "PatientID"

/-- The index of the Case row an uploaded row updates
(`edit_df[edit_df['PatientID'] == row_udf['PatientID']].index[0]`). -/
def targetIdx (edit_rows : List TRow) (row_udf : TRow) : Option Nat :=
  findFirstIdx
    (fun r => cellEq (lookupCell r "PatientID") (lookupCell row_udf "PatientID"))
    edit_rows

theorem mergeStep_eq (update_tags : List String) (acc : List TRow) (u : TRow) :
    mergeStep update_tags acc u
      = match targetIdx acc u with
        | none => acc
        | some i => modifyAt acc i (fun r => applyUpdates r u update_tags) := rfl

theorem findFirstIdx_eq_of_map (q : Cell → Bool) (l l' : List TRow)
    (h : l.map pidOf = l'.map pidOf) :
    findFirstIdx (fun r => q (pidOf r)) l
      = findFirstIdx (fun r => q (pidOf r)) l' := by
  induction l generalizing l' with
  | nil =>
    cases l' with
    | nil => rfl
    | cons r' rs' => simp at h
  | cons r rs ih =>
    cases l' with
    | nil => simp at h
    | cons r' rs' =>
      simp only [List.map_cons, List.cons.injEq] at h
      obtain ⟨h1, h2⟩ := h
      simp only [findFirstIdx]
      by_cases hq : q (pidOf r) = true
      · rw [if_pos hq, if_pos (by rw [← h1]; exact hq)]
      · rw [if_neg hq, if_neg (by rw [← h1]; exact hq), ih rs' h2]

theorem targetIdx_eq_of_map (edit edit' : List TRow) (u : TRow)
    (h : edit.map pidOf = edit'.map pidOf) :
    targetIdx edit u = targetIdx edit' u :=
  findFirstIdx_eq_of_map (fun c => cellEq c (lookupCell u "PatientID")) edit edit' h

theorem modifyAt_map_pid (l : List TRow) (i : Nat) (g : TRow → TRow)
    (hg : ∀ r, pidOf (g r) = pidOf r) :
    (modifyAt l i g).map pidOf = l.map pidOf := by
  induction l generalizing i with
  | nil => rfl
  | cons x xs ih =>
    cases i with
    | zero => simp only [modifyAt, List.map_cons]; rw [hg x]
    | succ i => simp only [modifyAt, List.map_cons]; rw [ih i]

theorem mergeStep_map_pid (update_tags : List String) (acc : List TRow)
    (u : TRow) : (mergeStep update_tags acc u).map pidOf = acc.map pidOf := by
  rw [mergeStep_eq]
  cases targetIdx acc u with
  | none => rfl
  | some i =>
    exact modifyAt_map_pid acc i _
      (fun r => applyUpdates_pid r u update_tags)

theorem update_data_editor_map_pid (edit upload : List TRow)
    (update_tags : List String) :
    (update_data_editor edit upload update_tags).map pidOf = edit.map pidOf := by
  induction upload generalizing edit with
  | nil => rfl
  | cons u us ih =>
    rw [show update_data_editor edit (u :: us) update_tags
        = update_data_editor (mergeStep update_tags edit u) us update_tags from rfl]
    rw [ih (mergeStep update_tags edit u), mergeStep_map_pid]

/-- The merged table described row-by-row: row `i` of the Case table
accumulates, in upload order, exactly the uploaded rows whose target is
`i`. -/
def altMerge (update_tags : List String) (edit upload : List TRow) : List TRow :=
  mapIdxGo
    (fun i r => chainApply update_tags r
      (upload.filter (fun u => decide (targetIdx edit u = some i))))
    0 edit

theorem update_data_editor_char (update_tags : List String)
    (upload edit : List TRow) :
    update_data_editor edit upload update_tags
      = altMerge update_tags edit upload := by
  induction upload generalizing edit with
  | nil => exact (mapIdxGo_id 0 edit).symm
  | cons u us ih =>
    rw [show update_data_editor edit (u :: us) update_tags
        = update_data_editor (mergeStep update_tags edit u) us update_tags from rfl]
    rw [ih (mergeStep update_tags edit u)]
    rcases ht : targetIdx edit u with _ | j
    · have hstep : mergeStep update_tags edit u = edit := by
        rw [mergeStep_eq, ht]
      rw [hstep]
      unfold altMerge
      apply mapIdxGo_congr
      intro i r hi
      rw [List.filter_cons]
      rw [if_neg (by simp [ht])]
    · have hstep : mergeStep update_tags edit u
          = modifyAt edit j (fun r => applyUpdates r u update_tags) := by
        rw [mergeStep_eq, ht]
      rw [hstep]
      unfold altMerge
      have hmap : (modifyAt edit j (fun r => applyUpdates r u update_tags)).map pidOf
          = edit.map pidOf :=
        modifyAt_map_pid edit j _ (fun r => applyUpdates_pid r u update_tags)
      have htgt : ∀ w, targetIdx (modifyAt edit j (fun r => applyUpdates r u update_tags)) w
          = targetIdx edit w :=
        fun w => targetIdx_eq_of_map _ _ w hmap
      have hfil : (fun i r => chainApply update_tags r
            (us.filter (fun w => decide
              (targetIdx (modifyAt edit j (fun r => applyUpdates r u update_tags)) w
                = some i))))
          = (fun i r => chainApply update_tags r
            (us.filter (fun w => decide (targetIdx edit w = some i)))) := by
        funext i r
        rw [List.filter_congr (fun w _ => by rw [htgt w])]
      rw [hfil, mapIdxGo_modifyAt]
      apply mapIdxGo_congr
      intro i r hi
      by_cases hij : i = j
      · subst hij
        rw [if_pos (by omega)]
        rw [List.filter_cons, if_pos (by simp [ht])]
        rw [chainApply_cons]
      · have hji : ¬ (j = i) := fun h => hij h.symm
        rw [if_neg (by omega)]
        rw [List.filter_cons, if_neg (by simp [ht, hji])]

/-- C8: the reconciler merge is idempotent — applying the merge of the same
uploaded table onto the Case table twice yields exactly the table obtained
by applying it once.  (`update_tags` are the keys of a Python dict, hence
pairwise distinct.) -/
theorem update_data_editor_idem (edit_rows upload_rows : List TRow)
    (update_tags : List String) (hnd : update_tags.Nodup) :
    update_data_editor (update_data_editor edit_rows upload_rows update_tags)
        upload_rows update_tags
      = update_data_editor edit_rows upload_rows update_tags := by
  have hpid : (update_data_editor edit_rows upload_rows update_tags).map pidOf
      = edit_rows.map pidOf :=
    update_data_editor_map_pid edit_rows upload_rows update_tags
  have htgt : ∀ w, targetIdx (update_data_editor edit_rows upload_rows update_tags) w
      = targetIdx edit_rows w :=
    fun w => targetIdx_eq_of_map _ _ w hpid
  rw [update_data_editor_char update_tags upload_rows
    (update_data_editor edit_rows upload_rows update_tags)]
  unfold altMerge
  have hfil : (fun i r => chainApply update_tags r
        (upload_rows.filter (fun w => decide
          (targetIdx (update_data_editor edit_rows upload_rows update_tags) w
            = some i))))
      = (fun i r => chainApply update_tags r
        (upload_rows.filter (fun w => decide (targetIdx edit_rows w = some i)))) := by
    funext i r
    rw [List.filter_congr (fun w _ => by rw [htgt w])]
  rw [hfil]
  rw [show update_data_editor edit_rows upload_rows update_tags
      = altMerge update_tags edit_rows upload_rows from
    update_data_editor_char update_tags upload_rows edit_rows]
  unfold altMerge
  rw [mapIdxGo_mapIdxGo]
  apply mapIdxGo_congr
  intro i r hi
  exact chainApply_idem update_tags hnd r _

/-- Witness for C8 at a concrete Case table, uploaded table and tag list. -/
theorem update_data_editor_idem_witness :
    (["PatientName"] : List String).Nodup ∧
      update_data_editor
          (update_data_editor
            [[("PatientID", some "1"), ("Update_PatientName", some "")]]
            [[("PatientID", some "1"), ("Update_PatientName", some "ANN")]]
            ["PatientName"])
          [[("PatientID", some "1"), ("Update_PatientName", some "ANN")]]
          ["PatientName"]
        = update_data_editor
            [[("PatientID", some "1"), ("Update_PatientName", some "")]]
            [[("PatientID", some "1"), ("Update_PatientName", some "ANN")]]
            ["PatientName"] :=
  ⟨by decide,
   update_data_editor_idem
     [[("PatientID", some "1"), ("Update_PatientName", some "")]]
     [[("PatientID", some "1"), ("Update_PatientName", some "ANN")]]
     ["PatientName"] (by decide)⟩

/-! ## The per-file anonymize operation (C9) -/

/-- The outcome of `pydicom.dcmread(file_dir)` for one input file:
a parsed dataset, an `InvalidDicomError`, or any other exception. -/
inductive ReadResult where
  | ok (ds : Dataset)
  | invalidDicom
  | otherFailure
deriving DecidableEq, Repr

/-- The observable outcome of a Python call: a returned value, or a raised
exception (by its name). -/
inductive PyResult (α : Type) where
  | ret (a : α)
  | raised (exc : String)
deriving DecidableEq, Repr

/-- The default clear-list of `anonymize` (lines 258-279). -/
def default_tags : List DicomTag :=
  [⟨0x0010, 0x0010⟩, ⟨0x0010, 0x0020⟩, ⟨0x0010, 0x0030⟩, ⟨0x0010, 0x0040⟩,
   ⟨0x0010, 0x1040⟩, ⟨0x0010, 0x2154⟩, ⟨0x0008, 0x0050⟩, ⟨0x0020, 0x0010⟩,
   ⟨0x0008, 0x0080⟩, ⟨0x0008, 0x0081⟩, ⟨0x0008, 0x0090⟩, ⟨0x0008, 0x1048⟩,
   ⟨0x0008, 0x1050⟩, ⟨0x0008, 0x1070⟩, ⟨0x0010, 0x1090⟩, ⟨0x0010, 0x21B0⟩,
   ⟨0x0010, 0x4000⟩, ⟨0x0032, 0x1032⟩, ⟨0x0008, 0x1040⟩]

/-- A vendor-private element (odd group number), as removed by
`remove_private_tags`. -/
def isPrivate (e : DataElement) : Bool := e.tag.group % 2 = 1

/-- `setattr(f, dcm_tag, value)`: replace the value of an existing tag or
append a new element.  (pydicom resolves the keyword name to the numeric tag
and its dictionary VR; the model abstracts that resolution by keying the
creation map by the numeric tag directly.) -/
def setTag (ds : Dataset) (t : DicomTag) (v : String) : Dataset :=
  if ds.any (fun e => e.tag = t) then
    ds.map (fun e => if e.tag = t then { e with value := v } else e)
  else
    ds ++ [⟨t, "", v, true⟩]

/-- Embeds `anonymize` (`anonymize_dicom.py` lines 222-296) for one input
file, with `dcmread` modelled by the given `ReadResult` and the written
dataset returned alongside the function's return value.

The source wraps the body in `try/except InvalidDicomError`, but the
handler executes `print(f"Error when reading: {f}")` where the local `f` is
only assigned by the `dcmread` call that raised, so the handler itself
raises `UnboundLocalError`; any other exception is not caught at all.  On
success the function returns the literal `0`. -/
def anonymize (read_result : ReadResult) (tags : Option (List DicomTag))
    (update : Option (List (DicomTag × String))) (tags_2_spare : List DicomTag)
    (tags_2_create : List (DicomTag × String)) : PyResult (Nat × Dataset) :=
  let tags := match tags with | none => default_tags | some t => t
  match read_result with
  | .ok f =>
    let f1 := f.filter (fun e => ! isPrivate e)
    let f2 := f1.map (fun e => remove_info f1 e [] tags update tags_2_spare)
    let f3 := tags_2_create.foldl (fun ds p => setTag ds p.1 p.2) f2
    .ret (0, f3)
  | .invalidDicom => .raised "UnboundLocalError"
  | .otherFailure => .raised "UncaughtException"

/-- C9: evaluating `anonymize` shows the claim fails on the code.  A
malformed record makes the `except InvalidDicomError` handler itself raise
(`UnboundLocalError` on `f`), which propagates to the caller's loop over the
sibling files; and on success the function returns the constant `0` — it
never returns a success/failure tally. -/
theorem anonymize_invalid_dicom_raises :
    anonymize .invalidDicom none none [] [] = .raised "UnboundLocalError" ∧
      anonymize (.ok [⟨⟨0x0008, 0x0050⟩, "SH", "ACC1", true⟩]) none none [] []
        = .ret (0, [⟨⟨0x0008, 0x0050⟩, "SH", "", true⟩]) := by decide

/-! ## Tag-name consolidation (C10) -/

/-- The internal DICOM tag table of `consolidate_tags` (lines 161-171). -/
def tag_dict : List (String × DicomTag) :=
  [("PatientName", ⟨0x0010, 0x0010⟩),
   ("PatientID", ⟨0x0010, 0x0020⟩),
   ("PatientBirthDate", ⟨0x0010, 0x0030⟩),
   ("PatientSex", ⟨0x0010, 0x0040⟩),
   ("AccessionNumber", ⟨0x0008, 0x0050⟩),
   ("InstitutionName", ⟨0x0008, 0x0080⟩),
   ("StudyDate", ⟨0x0008, 0x0020⟩),
   ("StudyTime", ⟨0x0008, 0x0031⟩),
   ("BodyPartExamined", ⟨0x0018, 0x0015⟩)]

/-- `update_tag_defaults` (`config.py` lines 21-28): the patient-level
updatable tags and their default proposed values. -/
def update_tag_defaults : List (String × String) :=
  [("PatientName", ""), ("PatientID", ""), ("BodyPartExamined", "")]

/-- `series_update_tag_defaults` (`config.py` lines 45-47): the patient-level
dict merged (`|`) with `SeriesDescription`. -/
def series_update_tag_defaults : List (String × String) :=
  update_tag_defaults ++ [("SeriesDescription", "")]

/-- `Except.ok`-ness of a fallible computation. -/
def exceptOk {ε α : Type} : Except ε α → Bool
  | .ok _ => true
  | .error _ => false

/-- The loop of `consolidate_tags` (lines 173-177): skip tags whose
proposed value is missing or empty; otherwise look the name up in
`tag_dict` — a name outside the table raises `KeyError`, modelled as
`Except.error`. -/
def consolidate_go (row : TRow) :
    List String → List (DicomTag × String) → Except String (List (DicomTag × String))
  | [], update => .ok update
  | dcm_tag :: rest, update =>
    match lookupCell row ("Update_" ++ dcm_tag) with
    | some v =>
      if v ≠ "" then
        match alookup tag_dict dcm_tag with
        | some t => consolidate_go row rest (update ++ [(t, v)])
        | none => .error ("KeyError: " ++ dcm_tag)
      else consolidate_go row rest update
    | none => consolidate_go row rest update

/-- Embeds `consolidate_tags` (`anonymize_dicom.py` lines 149-179). -/
def consolidate_tags (row : TRow) (update_tags : List String) :
    Except String (List (DicomTag × String)) :=
  consolidate_go row update_tags []

theorem consolidate_go_isOk (row : TRow) (ts : List String)
    (acc : List (DicomTag × String)) :
    exceptOk (consolidate_go row ts acc) = true ↔
      ∀ t ∈ ts, ∀ v, lookupCell row ("Update_" ++ t) = some v → v ≠ "" →
        (alookup tag_dict t).isSome := by
  induction ts generalizing acc with
  | nil => simp [consolidate_go, exceptOk]
  | cons t ts ih =>
    cases hv : lookupCell row ("Update_" ++ t) with
    | none => simp [consolidate_go, hv, ih, List.forall_mem_cons]
    | some v =>
      by_cases hve : v = ""
      · subst hve
        simp [consolidate_go, hv, ih, List.forall_mem_cons]
      · cases hl : alookup tag_dict t with
        | some tg =>
          simp [consolidate_go, hv, hve, hl, ih, List.forall_mem_cons]
        | none =>
          have hgo : consolidate_go row (t :: ts) acc
              = .error ("KeyError: " ++ t) := by
            simp [consolidate_go, hv, hve, hl]
          rw [hgo]
          simp only [List.forall_mem_cons]
          constructor
          · intro h
            simp [exceptOk] at h
          · intro h
            have h2 := h.1 v hv hve
            simp [hl] at h2

/-- C10: `consolidate_tags` succeeds exactly when every update-tag name with
a non-empty proposed value is one of the nine names of its internal
`tag_dict` (names with empty or missing proposed values are skipped and
never looked up); the configured series-mode update tags include
`SeriesDescription`, which lies outside the table, so a non-empty proposed
`SeriesDescription` makes the lookup fail with a `KeyError` — while an empty
one is silently skipped. -/
theorem consolidate_tags_spec :
    (∀ (row : TRow) (update_tags : List String),
        exceptOk (consolidate_tags row update_tags) = true ↔
          ∀ t ∈ update_tags, ∀ v,
            lookupCell row ("Update_" ++ t) = some v → v ≠ "" →
              (alookup tag_dict t).isSome) ∧
      tag_dict.map Prod.fst = ["PatientName", "PatientID", "PatientBirthDate",
        "PatientSex", "AccessionNumber", "InstitutionName", "StudyDate",
        "StudyTime", "BodyPartExamined"] ∧
      series_update_tag_defaults.map Prod.fst
        = ["PatientName", "PatientID", "BodyPartExamined", "SeriesDescription"] ∧
      consolidate_tags [("Update_SeriesDescription", some "PROT1")]
          (series_update_tag_defaults.map Prod.fst)
        = .error "KeyError: SeriesDescription" ∧
      consolidate_tags [("Update_SeriesDescription", some "")]
          (series_update_tag_defaults.map Prod.fst)
        = .ok [] :=
  ⟨fun row update_tags => consolidate_go_isOk row update_tags [],
   by decide, by decide, rfl, rfl⟩
